import Mathlib

/-!
Verification of the dispatch engine of the `command` package (command.go,
utils.go, help.go) against its natural-language specification.

The definitions below are a shallow embedding of the Go source:
pure string manipulation and token classification are translated directly;
the mutable per-node state (`C.Flags`, `C.isFlagSet`) is threaded through an
explicit store keyed by node identity (modelling Go pointer identity);
user-supplied hooks (`SetFlags`, `Init`, `Run`) are modelled by their
observable behaviours: flags they register, errors they return, and panics
they raise.  Panics are recovered per `Run` frame exactly as the Go
`defer`/`recover` block does, so a converted panic travels outward as an
ordinary error value.
-/

deriving instance DecidableEq for Except

namespace command

/-- A declared flag of a scope: its name and whether it is boolean-valued
(Go: `isBoolFlag`, i.e. the flag's value implements `IsBoolFlag() bool`). -/
structure GoFlag where
  name : String
  isBool : Bool
deriving DecidableEq, Repr

/-- The observable behaviour of invoking a user hook (an `Init` or `Run`
function): it returns nil, returns an error with a message, or panics with
a value.  Panic values are modelled as strings. -/
inductive HookRes where
  | ok : HookRes
  | err (msg : String) : HookRes
  | panicked (v : String) : HookRes
deriving DecidableEq, Repr

/-- The observable behaviour of a `SetFlags` hook: the flags it registers on
the flag set (in order), and, if `panicv = some v`, the hook panics with
value `v` after registering them. -/
structure SetSpec where
  decls : List GoFlag
  panicv : Option String
deriving DecidableEq, Repr

/-- The observable behaviour of an `Init` hook.  Besides its result it may
mutate the environment; the mutation relevant to dispatch is replacing
`env.Args` (`newArgs = some l`). -/
structure InitSpec where
  newArgs : Option (List String)
  res : HookRes
deriving DecidableEq, Repr

/-- The command tree type `C`.  `ident` models the Go pointer identity of
the `*C` node, used to key the mutable per-node state (`Flags`,
`isFlagSet`).  `runHook`/`setFlagsHook`/`initHook` are `none` exactly when
the corresponding Go field is nil. -/
inductive C where
  | mk : (name : String) → (customFlags : Bool) → (runHook : Option HookRes) →
      (setFlagsHook : Option SetSpec) → (initHook : Option InitSpec) →
      (commands : List C) → (ident : Nat) → C

def C.name : C → String
  | .mk n _ _ _ _ _ _ => n

def C.customFlags : C → Bool
  | .mk _ cf _ _ _ _ _ => cf

def C.runHook : C → Option HookRes
  | .mk _ _ r _ _ _ _ => r

def C.setFlagsHook : C → Option SetSpec
  | .mk _ _ _ s _ _ _ => s

def C.initHook : C → Option InitSpec
  | .mk _ _ _ _ i _ _ => i

def C.commands : C → List C
  | .mk _ _ _ _ _ cs _ => cs

def C.ident : C → Nat
  | .mk _ _ _ _ _ _ i => i

/-- Mutable state of one node: the contents of its `flag.FlagSet` (the
declared flags) and the `isFlagSet` guard bit. -/
structure NodeSt where
  flags : List GoFlag
  isFlagSet : Bool
deriving DecidableEq, Repr

/-- Fresh node state: an empty flag set, guard not yet fired. -/
def NodeSt.init : NodeSt := ⟨[], false⟩

/-- The store of per-node mutable state, keyed by node identity. -/
def Store := List (Nat × NodeSt)
deriving DecidableEq, Repr

def Store.get (st : Store) (i : Nat) : NodeSt :=
  match List.find? (fun p => p.1 = i) st with
  | some p => p.2
  | none => NodeSt.init

def Store.set (st : Store) (i : Nat) (ns : NodeSt) : Store :=
  (i, ns) :: List.filter (fun p => ¬ p.1 = i) st

/-! ### String helpers mirroring the Go `strings` functions used by the code -/

/-- Go `strings.CutPrefix(s, "-")`: `some rest` when `s` starts with `-`. -/
def cutDash (s : String) : Option String :=
  match s.data with
  | '-' :: r => some (String.mk r)
  | _ => none

/-- Go `strings.TrimPrefix(s, "-")`: drop one leading `-` if present. -/
def trimDash (s : String) : String :=
  match s.data with
  | '-' :: r => String.mk r
  | _ => s

/-- Go `strings.Cut(s, "=")`, first component: the part before the first
`=` (all of `s` when there is no `=`). -/
def cutEqName (s : String) : String :=
  String.mk (s.data.takeWhile (fun c => ¬ c = '='))

/-- Go `strings.Cut(s, "=")`, last component: whether an `=` occurs. -/
def hasEqSign (s : String) : Bool :=
  s.data.any (fun c => c = '=')

/-- Go `fs.Lookup(name)` on the modelled flag set. -/
def lookupFlag (fs : List GoFlag) (name : String) : Option GoFlag :=
  List.find? (fun f => f.name = name) fs

/-! ### splitFlags / joinArgs (utils.go) -/

/-- The loop of `splitFlags` (utils.go).  `wantArg` is the loop state: the
previous token was a non-boolean flag of the scope still awaiting its value
token.  `lastFlag` is the flag token that set `wantArg` (Go reads it back as
`flags[len(flags)-1]` for the error message).  Returns the `(flags, free)`
pair or the "missing value" error message. -/
def splitFlagsAux (fs : List GoFlag) (wantArg : Bool) (lastFlag : String) :
    List String → Except String (List String × List String)
  | [] =>
    if wantArg then .error ("missing value for flag \x22" ++ lastFlag ++ "\x22")
    else .ok ([], [])
  | s :: rest =>
    -- Case 1: the previous argument is a flag that needs a value.
    if wantArg then
      (splitFlagsAux fs false lastFlag rest).map (fun p => (s :: p.1, p.2))
    -- Treat "-" and "--" as free arguments.
    else if s = "-" ∨ s = "--" then
      (splitFlagsAux fs false lastFlag rest).map (fun p => (p.1, s :: p.2))
    else
      match cutDash s with
      | some r1 =>
        -- Case 2: flag-shaped arguments (-x, --x).  The Go locals
        -- `rest := strings.TrimPrefix(rest, "-")` and
        -- `name, _, ok := strings.Cut(rest, "=")` are inlined here.
        match lookupFlag fs (cutEqName (trimDash r1)) with
        | some f =>
          -- a flag belonging to this flag set
          if ¬ f.isBool ∧ ¬ hasEqSign (trimDash r1) then
            (splitFlagsAux fs true s rest).map (fun p => (s :: p.1, p.2))
          else
            (splitFlagsAux fs false lastFlag rest).map (fun p => (s :: p.1, p.2))
        | none =>
          -- may belong to a downstream flag set: free
          (splitFlagsAux fs false lastFlag rest).map (fun p => (p.1, s :: p.2))
      | none =>
        -- Case 3: free arguments.
        (splitFlagsAux fs false lastFlag rest).map (fun p => (p.1, s :: p.2))

/-- `splitFlags` (utils.go): construct from `args` the sub-list of tokens
belonging to flags of `fs` (with their value tokens) and the sub-list of all
other, free, tokens. -/
def splitFlags (fs : List GoFlag) (args : List String) :
    Except String (List String × List String) :=
  splitFlagsAux fs false "" args

/-- `joinArgs` (utils.go): `func joinArgs(a, b []string) []string { return append(a, b...) }`. -/
def joinArgs (a b : List String) : List String := a ++ b

example : splitFlags [⟨"x", false⟩] ["-x", "1", "y"] = .ok (["-x", "1"], ["y"]) := by decide
example : splitFlags [⟨"x", false⟩] ["--", "-x", "1"] = .ok (["-x", "1"], ["--"]) := by decide
example : splitFlags [⟨"b", true⟩] ["-b", "z", "-q"] = .ok (["-b"], ["z", "-q"]) := by decide
example : splitFlags [⟨"x", false⟩] ["y", "-x"] =
    .error "missing value for flag \x22-x\x22" := by decide

/-! ### The standard `flag` package parse (the code delegates to
`flag.FlagSet.Parse`; this models its `parseOne` loop).  Flag values are
modelled as always accepted except boolean flags given an `=value` that
`strconv.ParseBool` rejects. -/

/-- Result of `flag.FlagSet.Parse`: parsing stopped normally with the
remaining (non-flag) arguments, returned `flag.ErrHelp`, or failed. -/
inductive FsOut where
  | done (args : List String)
  | helpErr
  | failErr (msg : String)
deriving DecidableEq, Repr

/-- Go `strconv.ParseBool` acceptance. -/
def parseBoolOk (v : String) : Bool :=
  v = "1" ∨ v = "t" ∨ v = "T" ∨ v = "true" ∨ v = "TRUE" ∨ v = "True" ∨
  v = "0" ∨ v = "f" ∨ v = "F" ∨ v = "false" ∨ v = "FALSE" ∨ v = "False"

/-- The per-token analysis at the head of `flag.FlagSet.parseOne`: a token
is a stop token (`len(s) < 2` or no leading `-`, including a bare `-`),
the lone terminator `--`, a syntax error (`---x`, `-=v`), or a flag-shaped
token split into its name, whether an `=value` was supplied, and that
value. -/
inductive TokenShape where
  | plain
  | terminator
  | badSyntax
  | flagTok (nm : String) (hasValue : Bool) (value : String)
deriving DecidableEq, Repr

/-- Analyse one token as `flag.FlagSet.parseOne` does. -/
def tokenShape (s : String) : TokenShape :=
  match s.data with
  | '-' :: c2 :: cs =>
    if c2 = '-' ∧ cs = [] then .terminator
    else
      let nameChars := if c2 = '-' then cs else c2 :: cs
      match nameChars with
      | [] => .badSyntax
      | n0 :: _ =>
        if n0 = '-' ∨ n0 = '=' then .badSyntax
        else
          .flagTok (String.mk (nameChars.takeWhile (fun c => ¬ c = '=')))
            (nameChars.any (fun c => c = '='))
            (String.mk ((nameChars.dropWhile (fun c => ¬ c = '=')).drop 1))
  | _ => .plain

/-- The parse loop of `flag.FlagSet.Parse` over the declared flags `fs`:
stop at the first token that is not flag-shaped (or at a bare `-`), consume
a lone `--` and stop, report `ErrHelp` for an undeclared `-help`/`-h`,
error on undeclared flags and on missing arguments, and otherwise consume
the flag (and its value token for non-boolean flags given no `=value`). -/
def fsParse (fs : List GoFlag) : List String → FsOut
  | [] => .done []
  | s :: rest =>
    match tokenShape s with
    | .plain =>
      -- len(s) < 2 or s does not begin with '-': stop parsing here
      .done (s :: rest)
    | .terminator =>
      -- "--" terminates the flags
      .done rest
    | .badSyntax => .failErr ("bad flag syntax: " ++ s)
    | .flagTok nm hasValue value =>
      match lookupFlag fs nm with
      | none =>
        if nm = "help" ∨ nm = "h" then
          -- special case for nice help message
          .helpErr
        else .failErr ("flag provided but not defined: -" ++ nm)
      | some f =>
        if f.isBool then
          if hasValue ∧ ¬ parseBoolOk value then
            .failErr ("invalid boolean value \x22" ++ value ++ "\x22 for -" ++ nm)
          else fsParse fs rest
        else
          if hasValue then fsParse fs rest
          else
            match rest with
            | [] => .failErr ("flag needs an argument: -" ++ nm)
            | _ :: rest2 => fsParse fs rest2

example : fsParse [⟨"x", false⟩] ["-x", "1", "y", "-z"] = .done ["y", "-z"] := by decide
example : fsParse [] ["--help", "y"] = .helpErr := by decide
example : fsParse [] ["-nonesuch", "y"] =
    .failErr "flag provided but not defined: -nonesuch" := by decide
example : fsParse [⟨"x", false⟩] ["--", "-x", "1"] = .done ["-x", "1"] := by decide
example : fsParse [⟨"x", false⟩] ["-x"] = .failErr "flag needs an argument: -x" := by decide

/-! ### Command-tree predicates (command.go) -/

/-- `Runnable` (command.go): `c != nil && (c.Run != nil || c.Init != nil)`. -/
def Runnable : Option C → Bool
  | none => false
  | some c => c.runHook.isSome || c.initHook.isSome

/-- The loop of `FindSubcommand`: first child whose name matches. -/
def findSub : List C → String → Option C
  | [], _ => none
  | c :: cs, nm => if c.name = nm then some c else findSub cs nm

/-- `FindSubcommand` (command.go): the subcommand of `c` matching `name`, or nil. -/
def FindSubcommand (c : C) (nm : String) : Option C := findSub c.commands nm

mutual
/-- Body of `HasRunnableSubcommands` for a non-nil node: some child is
runnable or itself has runnable subcommands (direct and indirect). -/
def HasRunnableSubcommandsC : C → Bool
  | .mk _ _ _ _ _ cmds _ => hasRunnableList cmds
/-- The loop over `c.Commands` in `HasRunnableSubcommands`. -/
def hasRunnableList : List C → Bool
  | [] => false
  | c :: cs => (Runnable (some c) || HasRunnableSubcommandsC c) || hasRunnableList cs
end

/-- `HasRunnableSubcommands` (command.go), with the nil guard. -/
def HasRunnableSubcommands : Option C → Bool
  | none => false
  | some c => HasRunnableSubcommandsC c

/-- `setFlags` (help.go): invoke the node's `SetFlags` hook unless the
`isFlagSet` guard is already set; registering appends the hook's flag
declarations to the node's flag set.  If the hook panics (second component
`some v`), the registrations made before the panic persist but the guard is
NOT set, exactly as in the Go code where `c.isFlagSet = true` runs only
after `c.SetFlags(env, fs)` returns.  (The Go nil-receiver guard is moot
here: every call site passes a non-nil node.) -/
def setFlags (st : Store) (c : C) : Store × Option String :=
  match c.setFlagsHook with
  | none => (st, none)
  | some spec =>
    let ns := st.get c.ident
    if ns.isFlagSet then (st, none)
    else ((st.set c.ident ⟨ns.flags ++ spec.decls, spec.panicv.isNone⟩), spec.panicv)

/-! ### parseFlags and Run (command.go) -/

/-- Result of `Env.parseFlags`: updated `env.Args`, a help request
(`flag.ErrHelp`, on which the Go code prints long help and returns
`ErrRequestHelp`), or an error. -/
inductive PfOut where
  | ok (args : List String)
  | helpReq
  | fail (msg : String)
deriving DecidableEq, Repr

/-- `Env.parseFlags` (command.go): a no-op for `CustomFlags`; otherwise,
unless `skipMerge`, classify the raw arguments with `splitFlags` and rejoin
with `joinArgs`, then run the standard parse on the result. -/
def parseFlags (skipMerge : Bool) (st : Store) (cmd : C) (rawArgs : List String) : PfOut :=
  if cmd.customFlags then .ok rawArgs
  else
    let fl := (st.get cmd.ident).flags
    let merged : Except String (List String) :=
      if ¬ skipMerge then
        match splitFlags fl rawArgs with
        | .error m => .error m
        | .ok p => .ok (joinArgs p.1 p.2)
      else .ok rawArgs
    match merged with
    | .error m => .fail m
    | .ok toParse =>
      match fsParse fl toParse with
      | .done rem => .ok rem
      | .helpErr => .helpReq
      | .failErr m => .fail m

/-- Help and diagnostic output events written to the environment during a
dispatch: `printLongHelp`, `printShortHelp`, and the
"command not understood" message. -/
inductive Ev where
  | longHelp (name : String) (ident : Nat)
  | shortHelp (name : String) (ident : Nat)
  | notUnderstood (cmdName tok : String)
deriving DecidableEq, Repr

/-- The error result of a top-level `Run`: nil, `ErrRequestHelp`, a flag
parse/split error, a wrapped `Init` error (`initializing %q: %v`), an error
returned by the `Run` action, or a `PanicError` carrying the environment
(its node identity and name) active when the panic occurred and the raw
panic value. -/
inductive RunRes where
  | ok
  | requestHelp
  | flagErr (msg : String)
  | initErr (cmdName msg : String)
  | runErr (msg : String)
  | panicErr (ident : Nat) (name : String) (value : String)
deriving DecidableEq, Repr

/-- Executing `cmd.Run(env)` at the bottom of `Run`: an error is returned
verbatim; a panic is recovered by this frame's deferred handler and becomes
a `PanicError` for this frame's environment. -/
def execRes (cmd : C) : HookRes → RunRes
  | .ok => .ok
  | .err m => .runErr m
  | .panicked v => .panicErr cmd.ident cmd.name v

/-- Result of the `Init` phase of `Run`. -/
inductive InitOut where
  | ok (args : List String)
  | err (m : String)
  | panicked (v : String)
deriving DecidableEq, Repr

/-- The `Init` phase of `Run`: invoke `cmd.Init(env)` if set; the hook may
replace `env.Args`. -/
def initStep (cmd : C) (args : List String) : InitOut :=
  match cmd.initHook with
  | none => .ok args
  | some spec =>
    match spec.res with
    | .ok => .ok (spec.newArgs.getD args)
    | .err m => .err m
    | .panicked v => .panicked v

theorem findSub_mem {l : List C} {nm : String} {sub : C}
    (h : findSub l nm = some sub) : sub ∈ l := by
  induction l with
  | nil => simp [findSub] at h
  | cons c cs ih =>
    by_cases hc : c.name = nm
    · rw [findSub, if_pos hc] at h
      simp_all
    · rw [findSub, if_neg hc] at h
      exact List.mem_cons_of_mem _ (ih h)

theorem sizeOf_lt_of_findSub {c sub : C} {nm : String}
    (h : FindSubcommand c nm = some sub) : sizeOf sub < sizeOf c := by
  have hmem : sub ∈ c.commands := findSub_mem h
  have h1 : sizeOf sub < sizeOf c.commands := List.sizeOf_lt_of_mem hmem
  cases c with
  | mk n cf r s i cs id =>
    simp only [C.commands] at h1
    simp only [C.mk.sizeOf_spec]
    omega

/-- `Run` (command.go).  The phases: the deferred panic handler (each frame
recovers panics raised by its own hooks and converts them into a
`PanicError` for its own environment; a recursive call's result — already
an ordinary value — passes through unchanged, so the conversion happens
exactly once, at the frame that was dispatching when the panic occurred);
`setFlags`; `parseFlags` (a `flag.ErrHelp` becomes long help plus
`ErrRequestHelp`); `Init` (errors wrapped with the node name); then routing:
a runnable subcommand named by the first residual argument takes precedence
(recurse with the trailing arguments), a non-runnable subcommand with
runnable descendants and no trailing arguments gets its own long help, an
unmatched first argument on a node with no `Run` action reports
"command not understood", and otherwise the node's own `Run` action (or
short help when there is none) finishes the dispatch. -/
def Run (st : Store) (skipMerge : Bool) (cmd : C) (rawArgs : List String) :
    RunRes × Store × List Ev :=
  match setFlags st cmd with
  | (st1, some v) => (.panicErr cmd.ident cmd.name v, st1, [])
  | (st1, none) =>
    match parseFlags skipMerge st1 cmd rawArgs with
    | .fail m => (.flagErr m, st1, [])
    | .helpReq => (.requestHelp, st1, [.longHelp cmd.name cmd.ident])
    | .ok args1 =>
      match initStep cmd args1 with
      | .panicked v => (.panicErr cmd.ident cmd.name v, st1, [])
      | .err m => (.initErr cmd.name m, st1, [])
      | .ok args2 =>
        match args2 with
        | [] =>
          match cmd.runHook with
          | none => (.requestHelp, st1, [.shortHelp cmd.name cmd.ident])
          | some r => (execRes cmd r, st1, [])
        | a :: rest =>
          match hsub : FindSubcommand cmd a with
          | some sub =>
            if Runnable (some sub) || (HasRunnableSubcommands (some sub) && ¬ rest = []) then
              -- a runnable subcommand takes precedence
              Run st1 skipMerge sub rest
            else if HasRunnableSubcommands (some sub) && rest = [] then
              -- help for a topic subcommand with subcommands of its own
              (.requestHelp, st1, [.longHelp sub.name sub.ident])
            else
              match cmd.runHook with
              | none => (.requestHelp, st1, [.notUnderstood cmd.name a])
              | some r => (execRes cmd r, st1, [])
          | none =>
            -- a nil subcommand is neither runnable nor has runnable subcommands
            match cmd.runHook with
            | none => (.requestHelp, st1, [.notUnderstood cmd.name a])
            | some r => (execRes cmd r, st1, [])
termination_by sizeOf cmd
decreasing_by exact sizeOf_lt_of_findSub hsub

/-! ### Helper lemmas -/

theorem FindSubcommand_mem {c sub : C} {nm : String}
    (h : FindSubcommand c nm = some sub) : sub ∈ c.commands :=
  findSub_mem h

/-- `x` is a node of the tree rooted at `c` (`c` itself or a descendant). -/
inductive Descendant : C → C → Prop where
  | refl (c : C) : Descendant c c
  | child {x y c : C} : y ∈ c.commands → Descendant x y → Descendant x c

/-- Node `c` has a hook whose invocation panics with value `v`. -/
def PanicsWith (c : C) (v : String) : Prop :=
  (∃ spec, c.setFlagsHook = some spec ∧ spec.panicv = some v) ∨
  (∃ spec, c.initHook = some spec ∧ spec.res = .panicked v) ∨
  c.runHook = some (.panicked v)

theorem setFlags_panic {st st' : Store} {c : C} {v : String}
    (h : setFlags st c = (st', some v)) :
    ∃ spec, c.setFlagsHook = some spec ∧ spec.panicv = some v := by
  unfold setFlags at h
  cases hh : c.setFlagsHook with
  | none => rw [hh] at h; simp at h
  | some spec =>
    rw [hh] at h
    by_cases hfs : (st.get c.ident).isFlagSet
    · simp [hfs] at h
    · simp [hfs] at h
      exact ⟨spec, rfl, h.2⟩

theorem initStep_panic {c : C} {args : List String} {v : String}
    (h : initStep c args = .panicked v) :
    ∃ spec, c.initHook = some spec ∧ spec.res = .panicked v := by
  unfold initStep at h
  cases hh : c.initHook with
  | none => rw [hh] at h; simp at h
  | some spec =>
    rw [hh] at h
    cases hr : spec.res with
    | ok => simp [hr] at h
    | err m => simp [hr] at h
    | panicked w =>
      simp [hr] at h
      exact ⟨spec, rfl, by rw [hr, h]⟩

theorem execRes_panic {c : C} {r : HookRes} {i : Nat} {n v : String}
    (h : execRes c r = .panicErr i n v) :
    r = .panicked v ∧ i = c.ident ∧ n = c.name := by
  cases r with
  | ok => simp [execRes] at h
  | err m => simp [execRes] at h
  | panicked w =>
    simp [execRes] at h
    obtain ⟨hi, hn, hv⟩ := h
    exact ⟨by rw [hv], hi.symm, hn.symm⟩

/-- Routing step of `Run`: when the first residual argument names a child
that is runnable, or has runnable subcommands with further arguments
remaining, `Run` recurses into that child with the trailing arguments. -/
theorem Run_routes_child {st st1 : Store} {skipMerge : Bool} {cmd sub : C}
    {rawArgs args1 : List String} {a : String} {rest : List String}
    (hsf : setFlags st cmd = (st1, none))
    (hpf : parseFlags skipMerge st1 cmd rawArgs = .ok args1)
    (hin : initStep cmd args1 = .ok (a :: rest))
    (hfind : FindSubcommand cmd a = some sub)
    (hguard : Runnable (some sub) = true ∨
      (HasRunnableSubcommands (some sub) = true ∧ rest ≠ [])) :
    Run st skipMerge cmd rawArgs = Run st1 skipMerge sub rest := by
  have hg : (Runnable (some sub) || (HasRunnableSubcommands (some sub) && ¬ rest = [])) = true := by
    rcases hguard with h1 | ⟨h2, h3⟩
    · simp [h1]
    · simp [h2, h3]
  rw [Run.eq_def]
  simp only [hsf, hpf, hin]
  split
  next sub1 hsub =>
    rw [hfind] at hsub
    cases hsub
    simp only [hg, if_true]
  next hsub =>
    rw [hfind] at hsub
    cases hsub

theorem sizeOf_pos (c : C) : 1 ≤ sizeOf c := by
  cases c; simp; omega

/-- Soundness of the panic containment, by induction on the tree: whenever a
dispatch reports a `PanicError`, the environment it carries identifies a
node of the dispatched tree one of whose hooks panics with exactly the
reported value. -/
theorem Run_panic_origin_aux :
    ∀ (k : Nat) (cmd : C), sizeOf cmd ≤ k →
    ∀ (st : Store) (skipMerge : Bool) (rawArgs : List String) (i : Nat) (n v : String),
      (Run st skipMerge cmd rawArgs).1 = .panicErr i n v →
      ∃ c, Descendant c cmd ∧ c.ident = i ∧ c.name = n ∧ PanicsWith c v := by
  intro k
  induction k with
  | zero =>
    intro cmd hle
    exact absurd hle (by have := sizeOf_pos cmd; omega)
  | succ k ih =>
    intro cmd hle st skipMerge rawArgs i n v h
    rw [Run.eq_def] at h
    split at h
    next st1 v' hsf =>
      simp only [] at h
      obtain ⟨hi, hn, hv⟩ := RunRes.panicErr.inj h
      obtain ⟨spec, hsp, hpv⟩ := setFlags_panic hsf
      exact ⟨cmd, .refl cmd, hi, hn, Or.inl ⟨spec, hsp, hv ▸ hpv⟩⟩
    next st1 hsf =>
      split at h
      next m hpf => simp at h
      next hpf => simp at h
      next args1 hpf =>
        split at h
        next v' hin =>
          obtain ⟨hi, hn, hv⟩ := RunRes.panicErr.inj h
          obtain ⟨spec, hsp, hpv⟩ := initStep_panic hin
          exact ⟨cmd, .refl cmd, hi, hn, Or.inr (Or.inl ⟨spec, hsp, hv ▸ hpv⟩)⟩
        next m hin => simp at h
        next args2 hin =>
          split at h
          next =>
            -- args2 = []
            split at h
            next hrh => simp at h
            next r hrh =>
              simp only [] at h
              obtain ⟨hr, hi, hn⟩ := execRes_panic h
              exact ⟨cmd, .refl cmd, hi.symm, hn.symm,
                Or.inr (Or.inr (by rw [hrh, hr]))⟩
          next a rest =>
            split at h
            next sub hsub =>
              split at h
              next hguard =>
                have hsz : sizeOf sub ≤ k := by
                  have := sizeOf_lt_of_findSub hsub
                  omega
                obtain ⟨c, hc, hci, hcn, hcp⟩ := ih sub hsz _ _ _ _ _ _ h
                exact ⟨c, .child (FindSubcommand_mem hsub) hc, hci, hcn, hcp⟩
              next hguard =>
                split at h
                next => simp at h
                next =>
                  split at h
                  next hrh => simp at h
                  next r hrh =>
                    obtain ⟨hr, hi, hn⟩ := execRes_panic h
                    exact ⟨cmd, .refl cmd, hi.symm, hn.symm,
                      Or.inr (Or.inr (by rw [hrh, hr]))⟩
            next hsub =>
              split at h
              next hrh => simp at h
              next r hrh =>
                obtain ⟨hr, hi, hn⟩ := execRes_panic h
                exact ⟨cmd, .refl cmd, hi.symm, hn.symm,
                  Or.inr (Or.inr (by rw [hrh, hr]))⟩

theorem except_map_ok {α β γ : Type} {g : β → γ} {e : Except α β} {x : γ}
    (h : e.map g = .ok x) : ∃ y, e = .ok y ∧ g y = x := by
  cases e with
  | error m => simp [Except.map] at h
  | ok y => simp [Except.map] at h; exact ⟨y, rfl, h⟩

/-- Every run of the `splitFlags` loop that succeeds produces an
order-preserving two-colouring of its input: there is a labelling of the
input tokens such that the flag tokens are exactly the tokens labelled
true, in order, and the free tokens exactly those labelled false, in
order. -/
theorem splitFlagsAux_partition :
    ∀ (args : List String) (fs : List GoFlag) (wantArg : Bool) (lf : String)
      (fl fr : List String),
      splitFlagsAux fs wantArg lf args = .ok (fl, fr) →
      ∃ lab : List (Bool × String),
        lab.map Prod.snd = args ∧
        fl = (lab.filter (fun p => p.1)).map Prod.snd ∧
        fr = (lab.filter (fun p => ¬ p.1)).map Prod.snd := by
  intro args
  induction args with
  | nil =>
    intro fs wantArg lf fl fr h
    cases wantArg with
    | false =>
      simp [splitFlagsAux] at h
      exact ⟨[], by simp, by simp [h.1], by simp [h.2]⟩
    | true => simp [splitFlagsAux] at h
  | cons s rest ih =>
    intro fs wantArg lf fl fr h
    rw [splitFlagsAux] at h
    split at h
    · -- value token of the previous flag: goes to the flag tokens
      obtain ⟨⟨fl', fr'⟩, he, hg⟩ := except_map_ok h
      obtain ⟨lab, h1, h2, h3⟩ := ih _ _ _ _ _ he
      simp only [] at hg
      injection hg with hgl hgr
      subst hgl hgr
      exact ⟨(true, s) :: lab, by simp [h1], by simp [h2], by simp [h3]⟩
    · split at h
      · -- "-" or "--": free
        obtain ⟨⟨fl', fr'⟩, he, hg⟩ := except_map_ok h
        obtain ⟨lab, h1, h2, h3⟩ := ih _ _ _ _ _ he
        simp only [] at hg
        injection hg with hgl hgr
        subst hgl hgr
        exact ⟨(false, s) :: lab, by simp [h1], by simp [h2], by simp [h3]⟩
      · split at h
        next r1 hcut =>
          split at h
          next f hlk =>
            split at h
            · -- declared non-boolean flag without =value: flag token
              obtain ⟨⟨fl', fr'⟩, he, hg⟩ := except_map_ok h
              obtain ⟨lab, h1, h2, h3⟩ := ih _ _ _ _ _ he
              simp only [] at hg
              injection hg with hgl hgr
              subst hgl hgr
              exact ⟨(true, s) :: lab, by simp [h1], by simp [h2], by simp [h3]⟩
            · -- declared boolean flag or flag with =value: flag token
              obtain ⟨⟨fl', fr'⟩, he, hg⟩ := except_map_ok h
              obtain ⟨lab, h1, h2, h3⟩ := ih _ _ _ _ _ he
              simp only [] at hg
              injection hg with hgl hgr
              subst hgl hgr
              exact ⟨(true, s) :: lab, by simp [h1], by simp [h2], by simp [h3]⟩
          next hlk =>
            -- flag-shaped token not declared in this scope: free
            obtain ⟨⟨fl', fr'⟩, he, hg⟩ := except_map_ok h
            obtain ⟨lab, h1, h2, h3⟩ := ih _ _ _ _ _ he
            simp only [] at hg
            injection hg with hgl hgr
            subst hgl hgr
            exact ⟨(false, s) :: lab, by simp [h1], by simp [h2], by simp [h3]⟩
        next hcut =>
          -- other tokens: free
          obtain ⟨⟨fl', fr'⟩, he, hg⟩ := except_map_ok h
          obtain ⟨lab, h1, h2, h3⟩ := ih _ _ _ _ _ he
          simp only [] at hg
          injection hg with hgl hgr
          subst hgl hgr
          exact ⟨(false, s) :: lab, by simp [h1], by simp [h2], by simp [h3]⟩

/-- A token that `splitFlags` would classify as a declared flag of the
scope: not a bare `-`/`--`, flag-shaped, and its name (the part before any
`=`, after stripping one or two dashes) is declared in `fs`. -/
def declaredFlagToken (fs : List GoFlag) (s : String) : Bool :=
  if s = "-" ∨ s = "--" then false
  else
    match cutDash s with
    | some r1 => (lookupFlag fs (cutEqName (trimDash r1))).isSome
    | none => false

/-- Free tokens returned by the `splitFlags` loop are never declared flag
tokens of the scope: each is a bare `-`/`--`, a non-flag-shaped token, or a
flag-shaped token whose name is not declared. -/
theorem splitFlagsAux_free_not_declared :
    ∀ (args : List String) (fs : List GoFlag) (wantArg : Bool) (lf : String)
      (fl fr : List String),
      splitFlagsAux fs wantArg lf args = .ok (fl, fr) →
      ∀ s ∈ fr, declaredFlagToken fs s = false := by
  intro args
  induction args with
  | nil =>
    intro fs wantArg lf fl fr h
    cases wantArg with
    | false => simp [splitFlagsAux] at h; simp [h.2]
    | true => simp [splitFlagsAux] at h
  | cons s rest ih =>
    intro fs wantArg lf fl fr h
    rw [splitFlagsAux] at h
    split at h
    · -- value token: goes to the flag tokens, free tokens unchanged
      obtain ⟨⟨fl', fr'⟩, he, hg⟩ := except_map_ok h
      simp only [] at hg
      injection hg with hgl hgr
      subst hgl hgr
      exact ih _ _ _ _ _ he
    · split at h
      · next hdash =>
        obtain ⟨⟨fl', fr'⟩, he, hg⟩ := except_map_ok h
        simp only [] at hg
        injection hg with hgl hgr
        subst hgl hgr
        intro t ht
        simp only [List.mem_cons] at ht
        rcases ht with hts | htr
        · rw [hts, declaredFlagToken, if_pos hdash]
        · exact ih _ _ _ _ _ he t htr
      · split at h
        next r1 hcut =>
          split at h
          next f hlk =>
            split at h
            · obtain ⟨⟨fl', fr'⟩, he, hg⟩ := except_map_ok h
              simp only [] at hg
              injection hg with hgl hgr
              subst hgl hgr
              exact ih _ _ _ _ _ he
            · obtain ⟨⟨fl', fr'⟩, he, hg⟩ := except_map_ok h
              simp only [] at hg
              injection hg with hgl hgr
              subst hgl hgr
              exact ih _ _ _ _ _ he
          next hlk =>
            obtain ⟨⟨fl', fr'⟩, he, hg⟩ := except_map_ok h
            simp only [] at hg
            injection hg with hgl hgr
            subst hgl hgr
            intro t ht
            simp only [List.mem_cons] at ht
            rcases ht with hts | htr
            · rw [hts]
              simp [declaredFlagToken, hcut, hlk]
            · exact ih _ _ _ _ _ he t htr
        next hcut =>
          obtain ⟨⟨fl', fr'⟩, he, hg⟩ := except_map_ok h
          simp only [] at hg
          injection hg with hgl hgr
          subst hgl hgr
          intro t ht
          simp only [List.mem_cons] at ht
          rcases ht with hts | htr
          · rw [hts]
            simp [declaredFlagToken, hcut]
          · exact ih _ _ _ _ _ he t htr

theorem store_get_set_self (st : Store) (i : Nat) (ns : NodeSt) :
    (st.set i ns).get i = ns := by
  simp [Store.get, Store.set, List.find?]

/-- The one-shot guard: if an invocation of `setFlags` returns without a
panic, every later invocation on the resulting store is a no-op -- the
store is unchanged and the hook is not invoked again. -/
theorem setFlags_once {st : Store} {c : C}
    (h : (setFlags st c).2 = none) :
    setFlags (setFlags st c).1 c = ((setFlags st c).1, none) := by
  cases hh : c.setFlagsHook with
  | none => simp [setFlags, hh]
  | some spec =>
    by_cases hfs : (st.get c.ident).isFlagSet
    · simp [setFlags, hh, hfs]
    · have h2 : setFlags st c =
          (st.set c.ident ⟨(st.get c.ident).flags ++ spec.decls, spec.panicv.isNone⟩,
            spec.panicv) := by
        simp [setFlags, hh, hfs]
      rw [h2] at h ⊢
      simp only [] at h
      simp [setFlags, hh, store_get_set_self, h]

/-- On `flag.ErrHelp` from the standard parse, `Run` prints long help for
the current node and reports `ErrRequestHelp`. -/
theorem Run_helpReq {st st1 : Store} {skipMerge : Bool} {cmd : C} {rawArgs : List String}
    (hsf : setFlags st cmd = (st1, none))
    (hpf : parseFlags skipMerge st1 cmd rawArgs = .helpReq) :
    Run st skipMerge cmd rawArgs = (.requestHelp, st1, [.longHelp cmd.name cmd.ident]) := by
  rw [Run.eq_def]
  simp only [hsf, hpf]

/-- Routing step of `Run`: a non-runnable child with runnable subcommands
named by the last residual argument gets its own long help. -/
theorem Run_topic_help {st st1 : Store} {skipMerge : Bool} {cmd sub : C}
    {rawArgs args1 : List String} {a : String}
    (hsf : setFlags st cmd = (st1, none))
    (hpf : parseFlags skipMerge st1 cmd rawArgs = .ok args1)
    (hin : initStep cmd args1 = .ok [a])
    (hfind : FindSubcommand cmd a = some sub)
    (hnr : Runnable (some sub) = false)
    (hhs : HasRunnableSubcommands (some sub) = true) :
    Run st skipMerge cmd rawArgs = (.requestHelp, st1, [.longHelp sub.name sub.ident]) := by
  rw [Run.eq_def]
  simp only [hsf, hpf, hin]
  split
  next sub1 hsub =>
    rw [hfind] at hsub
    cases hsub
    simp [hnr, hhs]
  next hsub =>
    rw [hfind] at hsub
    cases hsub

/-- Routing step of `Run`: an unmatched first residual argument on a node
with no `Run` action reports "command not understood" and `ErrRequestHelp`. -/
theorem Run_not_understood {st st1 : Store} {skipMerge : Bool} {cmd : C}
    {rawArgs args1 : List String} {a : String} {rest : List String}
    (hsf : setFlags st cmd = (st1, none))
    (hpf : parseFlags skipMerge st1 cmd rawArgs = .ok args1)
    (hin : initStep cmd args1 = .ok (a :: rest))
    (hfind : FindSubcommand cmd a = none)
    (hrh : cmd.runHook = none) :
    Run st skipMerge cmd rawArgs = (.requestHelp, st1, [.notUnderstood cmd.name a]) := by
  rw [Run.eq_def]
  simp only [hsf, hpf, hin]
  split
  next sub1 hsub =>
    rw [hfind] at hsub
    cases hsub
  next hsub =>
    simp [hrh]

/-- The undeclared `-help`/`--help` token is recognized by the standard
parse as a help request. -/
theorem fsParse_dd_help (fs : List GoFlag) (rest : List String)
    (h : lookupFlag fs "help" = none) :
    fsParse fs ("--help" :: rest) = .helpErr := by
  rw [fsParse]
  rw [show tokenShape "--help" = .flagTok "help" false "" from by decide]
  simp [h]

theorem fsParse_sd_help (fs : List GoFlag) (rest : List String)
    (h : lookupFlag fs "help" = none) :
    fsParse fs ("-help" :: rest) = .helpErr := by
  rw [fsParse]
  rw [show tokenShape "-help" = .flagTok "help" false "" from by decide]
  simp [h]

/-! ### Concrete trees used by the witnesses and counterexamples -/

/-- A leaf whose `Run` action panics with `"boom"`. -/
def leafBoom : C := .mk "leaf" false (some (.panicked "boom")) none none [] 2

/-- A runnable middle node whose only child is `leafBoom`. -/
def midCmd : C := .mk "mid" false (some .ok) none none [leafBoom] 1

/-- A root with no action whose only child is `midCmd`. -/
def rootCmd : C := .mk "root" false none none none [midCmd] 0

theorem rootCmd_eval :
    Run [] true rootCmd ["mid", "leaf"] = (.panicErr 2 "leaf" "boom", [], []) := by
  rw [show Run [] true rootCmd ["mid", "leaf"] = Run [] true midCmd ["leaf"] from by
      rw [Run.eq_def]; rfl]
  rw [show Run [] true midCmd ["leaf"] = Run [] true leafBoom [] from by
      rw [Run.eq_def]; rfl]
  rw [Run.eq_def]; rfl

def twoCmd : C := .mk "two" false (some .ok) none none [] 12
def oneCmd : C := .mk "one" false (some .ok) none none [twoCmd] 11
def rootTwo : C := .mk "root" false none none none [oneCmd] 10

/-- A child with only an `Init` hook, no `Run` action. -/
def initOnly : C := .mk "setup" false none none (some ⟨none, .ok⟩) [] 21
def rootInit : C := .mk "root" false none none none [initOnly] 20

def leafRun : C := .mk "deep" false (some .ok) none none [] 32
/-- A topic node: no action, but an actionable descendant. -/
def topicCmd : C := .mk "topic" false none none none [leafRun] 31
def rootTopic : C := .mk "root" false none none none [topicCmd] 30

/-- A childless root WITH a `Run` action. -/
def runnableRoot : C := .mk "root" false (some .ok) none none [] 40

/-- A childless root withOUT a `Run` action. -/
def bareRoot : C := .mk "root" false none none none [] 41

def helpCmd : C := .mk "hcmd" false (some .ok) none none [] 50
def helpCmd2 : C := .mk "hsyn" false (some .ok) none none [] 51

/-- A node whose `SetFlags` hook registers flag `q` and then panics. -/
def panicSet : C := .mk "pset" false none (some ⟨[⟨"q", false⟩], some "boom"⟩) none [] 60

/-- A node whose `SetFlags` hook registers flag `q` and returns normally. -/
def okSet : C := .mk "oset" false none (some ⟨[⟨"q", false⟩], none⟩) none [] 61

/-! ### The claims -/

/-- Claim C1: for every command tree and argument list, if any hook invoked
during dispatch (a `SetFlags` hook, an `Init` hook, or a `Run` action)
panics with value `v`, the outermost `Run` call returns normally with an
error of type `PanicError` whose `Value()` equals `v` and whose `Env()`'s
`Command` is the node that was being dispatched when the panic occurred,
and the conversion happens exactly once regardless of recursion depth.
First conjunct: a reported `PanicError` always carries the identity and
name of a node of the dispatched tree one of whose hooks panics with
exactly the reported value (in the model every frame recovers its own
hooks' panics, as the Go `defer`/`recover` does, so no panic escapes and
`Run` always returns an ordinary value).  Second conjunct: a `PanicError`
produced inside a recursive child dispatch is returned by the parent frame
unchanged -- the parent does not wrap it again, so the conversion happens
exactly once, at the frame that was dispatching when the panic occurred. -/
theorem claim_C1_panic_containment :
    (∀ (st : Store) (skipMerge : Bool) (cmd : C) (rawArgs : List String)
        (i : Nat) (n v : String),
      (Run st skipMerge cmd rawArgs).1 = .panicErr i n v →
      ∃ c, Descendant c cmd ∧ c.ident = i ∧ c.name = n ∧ PanicsWith c v) ∧
    (∀ (st st1 : Store) (skipMerge : Bool) (cmd sub : C)
        (rawArgs args1 : List String) (a : String) (rest : List String)
        (i : Nat) (n v : String),
      setFlags st cmd = (st1, none) →
      parseFlags skipMerge st1 cmd rawArgs = .ok args1 →
      initStep cmd args1 = .ok (a :: rest) →
      FindSubcommand cmd a = some sub →
      (Runnable (some sub) = true ∨
        (HasRunnableSubcommands (some sub) = true ∧ rest ≠ [])) →
      (Run st1 skipMerge sub rest).1 = .panicErr i n v →
      (Run st skipMerge cmd rawArgs).1 = .panicErr i n v) := by
  constructor
  · intro st skipMerge cmd rawArgs i n v h
    exact Run_panic_origin_aux (sizeOf cmd) cmd (le_refl _) st skipMerge rawArgs i n v h
  · intro st st1 skipMerge cmd sub rawArgs args1 a rest i n v hsf hpf hin hfind hguard h
    rw [Run_routes_child hsf hpf hin hfind hguard]
    exact h

/-- Witness for C1: dispatching `root mid leaf` over a depth-two tree whose
leaf action panics with `"boom"` yields a `PanicError` carrying the leaf's
identity, and the theorem recovers the panicking node from it. -/
theorem claim_C1_witness :
    ∃ c, Descendant c rootCmd ∧ c.ident = 2 ∧ c.name = "leaf" ∧ PanicsWith c "boom" :=
  claim_C1_panic_containment.1 [] true rootCmd ["mid", "leaf"] 2 "leaf" "boom"
    (by rw [rootCmd_eval])

/-- Claim C2: when residual tokens remain at a node and the first residual
token names a directly actionable (`Runnable`) child, the dispatcher
recurses into that child with the remaining tokens as the child's residual
arguments, taking precedence over exploring that child's own descendants. -/
theorem claim_C2_runnable_child_precedence {st st1 : Store} {skipMerge : Bool}
    {cmd sub : C} {rawArgs args1 : List String} {a : String} {rest : List String}
    (hsf : setFlags st cmd = (st1, none))
    (hpf : parseFlags skipMerge st1 cmd rawArgs = .ok args1)
    (hin : initStep cmd args1 = .ok (a :: rest))
    (hfind : FindSubcommand cmd a = some sub)
    (hrun : Runnable (some sub) = true) :
    Run st skipMerge cmd rawArgs = Run st1 skipMerge sub rest :=
  Run_routes_child hsf hpf hin hfind (Or.inl hrun)

/-- Witness for C2: `root one two` routes into the runnable child `one`
with residual argument `two`, even though `one` has a descendant named by
the deeper token. -/
theorem claim_C2_witness :
    Run [] true rootTwo ["one", "two"] = Run [] true oneCmd ["two"] :=
  @claim_C2_runnable_child_precedence [] [] true rootTwo oneCmd ["one", "two"]
    ["one", "two"] "one" ["two"] rfl rfl rfl rfl rfl

/-- Counterexample to C3 as stated: with flag `x` declared, the resolver
classifies `["--", "-x", "1"]` as flag tokens `["-x", "1"]` and free token
`["--"]`; the claim requires every token after the terminator (`-x`, `1`)
to be classified free. -/
theorem claim_C3_counterexample :
    splitFlags [⟨"x", false⟩] ["--", "-x", "1"] = .ok (["-x", "1"], ["--"]) ∧
    splitFlags [⟨"x", false⟩] ["--", "-x", "1"] ≠ .ok ([], ["--", "-x", "1"]) :=
  ⟨by decide, by decide⟩

/-- Claim C3, amended: `splitFlags` gives `--` no terminator semantics.  A
`--` token outside a flag-value position is itself classified free and
classification of the remaining tokens continues exactly as if the `--`
were absent (so a declared flag after `--` is still classified as a flag
token); and a `--` in a flag-value position is consumed as the pending
flag's value token. -/
theorem claim_C3_terminator_free :
    (∀ (fs : List GoFlag) (rest : List String),
      splitFlags fs ("--" :: rest) =
        (splitFlags fs rest).map (fun p => (p.1, "--" :: p.2))) ∧
    (∀ (fs : List GoFlag) (lf : String) (rest : List String),
      splitFlagsAux fs true lf ("--" :: rest) =
        (splitFlagsAux fs false lf rest).map (fun p => ("--" :: p.1, p.2))) := by
  constructor
  · intro fs rest
    rw [splitFlags, splitFlags, splitFlagsAux]
    simp
  · intro fs lf rest
    rw [splitFlagsAux]
    simp

/-- Counterexample to C4 as stated: `joinArgs` never inserts a `--`
terminator; on the non-empty parts produced by the resolver it returns the
plain concatenation. -/
theorem claim_C4_counterexample :
    splitFlags [⟨"x", false⟩] ["-x", "1", "free"] = .ok (["-x", "1"], ["free"]) ∧
    joinArgs ["-x", "1"] ["free"] = ["-x", "1", "free"] ∧
    joinArgs ["-x", "1"] ["free"] ≠ ["-x", "1", "--", "free"] :=
  ⟨by decide, by decide, by decide⟩

/-- Claim C4, amended: `joinArgs` returns `flagTokens ++ freeTokens` with
no terminator inserted, for all inputs.  The protection of free tokens
comes from `splitFlags` itself: a free token is never a declared flag token
of the current scope (it is a bare `-`/`--`, not flag-shaped, or its name
is undeclared), so the subsequent standard parse cannot bind a free token
as a flag of the current scope. -/
theorem claim_C4_join_plain :
    (∀ a b : List String, joinArgs a b = a ++ b) ∧
    (∀ (fs : List GoFlag) (args fl fr : List String),
      splitFlags fs args = .ok (fl, fr) →
      ∀ s ∈ fr, declaredFlagToken fs s = false) :=
  ⟨fun _ _ => rfl,
    fun fs args fl fr h => splitFlagsAux_free_not_declared args fs false "" fl fr h⟩

/-- Witness for C4 (amended): a concrete split whose free part contains an
undeclared flag-shaped token, none of which is a declared flag token. -/
theorem claim_C4_witness :
    joinArgs ["a"] ["b"] = ["a"] ++ ["b"] ∧
    ∀ s ∈ ["-y", "z"], declaredFlagToken [⟨"x", false⟩] s = false :=
  ⟨claim_C4_join_plain.1 ["a"] ["b"],
    claim_C4_join_plain.2 [⟨"x", false⟩] ["-x", "1", "-y", "z"] ["-x", "1"] ["-y", "z"]
      (by decide)⟩

/-- Claim C5: whenever `splitFlags` succeeds, its two outputs form an
order-preserving partition of the input: some labelling of the input
tokens has the flag tokens as exactly the true-labelled tokens in order
and the free tokens as exactly the false-labelled tokens in order, so
interleaving them back by label reconstructs the input. -/
theorem claim_C5_partition (fs : List GoFlag) (args fl fr : List String)
    (h : splitFlags fs args = .ok (fl, fr)) :
    ∃ lab : List (Bool × String),
      lab.map Prod.snd = args ∧
      fl = (lab.filter (fun p => p.1)).map Prod.snd ∧
      fr = (lab.filter (fun p => ¬ p.1)).map Prod.snd :=
  splitFlagsAux_partition args fs false "" fl fr h

/-- Witness for C5 at a concrete split. -/
theorem claim_C5_witness :
    ∃ lab : List (Bool × String),
      lab.map Prod.snd = ["-x", "1", "y", "-q"] ∧
      ["-x", "1"] = (lab.filter (fun p => p.1)).map Prod.snd ∧
      ["y", "-q"] = (lab.filter (fun p => ¬ p.1)).map Prod.snd :=
  claim_C5_partition [⟨"x", false⟩] ["-x", "1", "y", "-q"] ["-x", "1"] ["y", "-q"]
    (by decide)

/-- Counterexample to C6 as stated: on the universal help trigger the
dispatcher shows LONG-form help for the node, not synopsis (short-form)
help as the claim states. -/
theorem claim_C6_counterexample :
    Run [] true helpCmd ["--help"] = (.requestHelp, [], [.longHelp "hcmd" 50]) ∧
    [Ev.longHelp "hcmd" 50] ≠ [Ev.shortHelp "hcmd" 50] :=
  ⟨by rw [Run.eq_def]; rfl, by decide⟩

/-- Claim C6, amended: a `-help`/`--help` token whose name is not declared
as a flag of the node is recognized by the standard parse as a help
request, and on such a help request the dispatch aborts parsing and ends
in the help-shown state showing LONG-form help for that node, returning
the help-requested signal rather than a usage failure or parse error. -/
theorem claim_C6_help_trigger_long :
    (∀ (fs : List GoFlag) (rest : List String), lookupFlag fs "help" = none →
      fsParse fs ("--help" :: rest) = .helpErr ∧ fsParse fs ("-help" :: rest) = .helpErr) ∧
    (∀ (st st1 : Store) (skipMerge : Bool) (cmd : C) (rawArgs : List String),
      setFlags st cmd = (st1, none) →
      parseFlags skipMerge st1 cmd rawArgs = .helpReq →
      Run st skipMerge cmd rawArgs = (.requestHelp, st1, [.longHelp cmd.name cmd.ident])) :=
  ⟨fun fs rest h => ⟨fsParse_dd_help fs rest h, fsParse_sd_help fs rest h⟩,
    fun _ _ _ _ _ hsf hpf => Run_helpReq hsf hpf⟩

/-- Witness for C6 (amended) at a concrete node and argument list. -/
theorem claim_C6_witness :
    (fsParse [⟨"x", false⟩] ["--help", "y"] = .helpErr ∧
      fsParse [⟨"x", false⟩] ["-help", "y"] = .helpErr) ∧
    Run [] true helpCmd2 ["--help"] = (.requestHelp, [], [.longHelp "hsyn" 51]) :=
  ⟨claim_C6_help_trigger_long.1 [⟨"x", false⟩] ["y"] (by decide),
    claim_C6_help_trigger_long.2 [] [] true helpCmd2 ["--help"] (by decide) (by decide)⟩

/-- Claim C7: when the first residual token names a child that is not
directly actionable but has actionable descendants, and no tokens remain
past the child's name, the dispatcher shows that child's own long-form
help (the emitted event carries the child's name and identity, not the
parent's) and returns the help-requested signal. -/
theorem claim_C7_topic_child_help {st st1 : Store} {skipMerge : Bool}
    {cmd sub : C} {rawArgs args1 : List String} {a : String}
    (hsf : setFlags st cmd = (st1, none))
    (hpf : parseFlags skipMerge st1 cmd rawArgs = .ok args1)
    (hin : initStep cmd args1 = .ok [a])
    (hfind : FindSubcommand cmd a = some sub)
    (hnr : Runnable (some sub) = false)
    (hhs : HasRunnableSubcommands (some sub) = true) :
    Run st skipMerge cmd rawArgs = (.requestHelp, st1, [.longHelp sub.name sub.ident]) :=
  Run_topic_help hsf hpf hin hfind hnr hhs

/-- Witness for C7: `root topic` over a tree where `topic` has no action
but a runnable child shows `topic`'s own long help. -/
theorem claim_C7_witness :
    Run [] true rootTopic ["topic"] = (.requestHelp, [], [.longHelp "topic" 31]) :=
  @claim_C7_topic_child_help [] [] true rootTopic topicCmd ["topic"] ["topic"]
    "topic" rfl rfl rfl rfl rfl rfl

/-- Counterexample to C8 as stated: on a node that HAS a `Run` action, an
unmatched first residual token does not produce "command not understood";
the action runs normally with the tokens as its arguments. -/
theorem claim_C8_counterexample :
    Run [] true runnableRoot ["xyz"] = (.ok, [], []) ∧
    RunRes.ok ≠ RunRes.requestHelp ∧
    ([] : List Ev) ≠ [.notUnderstood "root" "xyz"] :=
  ⟨by rw [Run.eq_def]; rfl, by decide, by decide⟩

/-- Claim C8, amended: when residual tokens remain, the first residual
token matches no child, AND the current node has no `Run` action, the
dispatcher reports "command not understood" naming that token and returns
the help-requested signal (not a fatal error), with no routing into any
child. -/
theorem claim_C8_not_understood {st st1 : Store} {skipMerge : Bool} {cmd : C}
    {rawArgs args1 : List String} {a : String} {rest : List String}
    (hsf : setFlags st cmd = (st1, none))
    (hpf : parseFlags skipMerge st1 cmd rawArgs = .ok args1)
    (hin : initStep cmd args1 = .ok (a :: rest))
    (hfind : FindSubcommand cmd a = none)
    (hrh : cmd.runHook = none) :
    Run st skipMerge cmd rawArgs = (.requestHelp, st1, [.notUnderstood cmd.name a]) :=
  Run_not_understood hsf hpf hin hfind hrh

/-- Witness for C8 (amended): a childless, action-less root reports
"command not understood" for an unmatched token. -/
theorem claim_C8_witness :
    Run [] true bareRoot ["xyz"] = (.requestHelp, [], [.notUnderstood "root" "xyz"]) :=
  @claim_C8_not_understood [] [] true bareRoot ["xyz"] ["xyz"] "xyz" [] rfl rfl rfl rfl rfl

/-- Counterexample to C9 as stated: a `SetFlags` hook that panics does not
set the `isFlagSet` guard (in the Go code `c.isFlagSet = true` runs only
after the hook returns), so reaching the node again in a later sequential
dispatch invokes the hook AGAIN: the second invocation registers the
declarations a second time (the node's flag set changes again) and panics
again. -/
theorem claim_C9_counterexample :
    (setFlags (setFlags [] panicSet).1 panicSet).2 = some "boom" ∧
    (setFlags (setFlags [] panicSet).1 panicSet).1.get 60 ≠ (setFlags [] panicSet).1.get 60 :=
  ⟨by decide, by decide⟩

/-- Claim C9, amended: a node's `SetFlags` hook is invoked at most once per
process lifetime PROVIDED the invocation completes without panicking: a
non-panicking invocation sets the node's guard, after which reaching the
node again (any number of times, across sequential dispatches sharing the
tree) leaves the node's flag set unchanged and does not invoke the hook --
re-materialization is a no-op with the same observable effect as
materializing once. -/
theorem claim_C9_materialize_once :
    ∀ (st : Store) (c : C), (setFlags st c).2 = none →
      setFlags (setFlags st c).1 c = ((setFlags st c).1, none) ∧
      ∀ k : Nat, (fun s => (setFlags s c).1)^[k] (setFlags st c).1 = (setFlags st c).1 := by
  intro st c h
  refine ⟨setFlags_once h, ?_⟩
  intro k
  induction k with
  | zero => rfl
  | succ k ihk =>
    rw [Function.iterate_succ_apply,
      show (setFlags (setFlags st c).1 c).1 = (setFlags st c).1 from by
        rw [setFlags_once h]]
    exact ihk

/-- Witness for C9 (amended): a node whose hook registers one flag and
returns normally; a second and even a fifth re-materialization leave the
store unchanged. -/
theorem claim_C9_witness :
    setFlags (setFlags [] okSet).1 okSet = ((setFlags [] okSet).1, none) ∧
    (fun s => (setFlags s okSet).1)^[5] (setFlags [] okSet).1 = (setFlags [] okSet).1 :=
  ⟨(claim_C9_materialize_once [] okSet (by decide)).1,
    (claim_C9_materialize_once [] okSet (by decide)).2 5⟩

/-- Claim C10: `Runnable` holds exactly for a non-nil command with a `Run`
action or an `Init` hook; in particular a child with only an `Init` hook
is directly actionable, so the dispatcher recurses into it under the
runnable-child precedence rule instead of treating it as a help topic. -/
theorem claim_C10_runnable_init_only :
    (∀ oc : Option C, Runnable oc = true ↔
      ∃ c, oc = some c ∧ (c.runHook.isSome = true ∨ c.initHook.isSome = true)) ∧
    (∀ (st st1 : Store) (skipMerge : Bool) (cmd sub : C)
        (rawArgs args1 : List String) (a : String) (rest : List String)
        (ispec : InitSpec),
      setFlags st cmd = (st1, none) →
      parseFlags skipMerge st1 cmd rawArgs = .ok args1 →
      initStep cmd args1 = .ok (a :: rest) →
      FindSubcommand cmd a = some sub →
      sub.runHook = none → sub.initHook = some ispec →
      Run st skipMerge cmd rawArgs = Run st1 skipMerge sub rest) := by
  constructor
  · intro oc
    cases oc with
    | none => simp [Runnable]
    | some c => simp [Runnable, Bool.or_eq_true]
  · intro st st1 skipMerge cmd sub rawArgs args1 a rest ispec hsf hpf hin hfind hrh hih
    refine Run_routes_child hsf hpf hin hfind (Or.inl ?_)
    simp [Runnable, hih]

/-- Witness for C10: a child with only an `Init` hook is runnable and is
routed into. -/
theorem claim_C10_witness :
    Runnable (some initOnly) = true ∧
    Run [] true rootInit ["setup", "x"] = Run [] true initOnly ["x"] :=
  ⟨(claim_C10_runnable_init_only.1 (some initOnly)).mpr
      ⟨initOnly, rfl, Or.inr (by decide)⟩,
    claim_C10_runnable_init_only.2 [] [] true rootInit initOnly ["setup", "x"]
      ["setup", "x"] "setup" ["x"] ⟨none, .ok⟩ rfl rfl rfl rfl rfl rfl⟩

end command
